import Mathlib

/-!
Verification of the layout/positioning core and the import layer of the
red-team timeline editor.

The layout core lives in `src/components/Timeline.tsx`:
  * the two time-axis mappers `dayToEvenPercent` and `dayToLinearPercent`,
  * the event position resolver `getEventPositions` / `assignPositions`,
  * the cluster-overflow aggregation (`redOverflows` / `blueOverflows`),
  * the vertical placement of `renderEvent`.

The import layer lives in `src/App.tsx` (`validateEvent`, `importFromJson`)
and `src/state/useTimelineState.ts` (`exportState`).

Modelling conventions:
  * Calendar days are represented by their day number (`Int`).  `parseISO`
    on a valid calendar-date string produces a `Date` at day granularity;
    day numbers are order-isomorphic to those dates, and
    `differenceInCalendarDays a b` is the day-number difference `a - b`.
  * Percentages are exact rationals (`ℚ`); the TypeScript source computes
    them in IEEE doubles, whose rounding is not modelled.
  * JSON documents are modelled by the inductive `Json` below; JavaScript
    `undefined` (an absent object property) is collapsed to `Json.null`,
    which is sound here because every check the import layer performs
    treats `undefined` and `null` identically.
-/

/-- Team enumeration: the `team` field is `"red" | "blue"` in `src/types.ts`. -/
inductive Team where
  | red
  | blue
deriving DecidableEq, Repr, Inhabited

/-- `TimelineEvent` as consumed by the layout core (`Timeline.tsx`).  The
`date` field holds the parsed calendar day (day number) — the layout core
receives dates already validated upstream (spec section 4.2). -/
structure TimelineEvent where
  id : String
  date : Int
  team : Team
  description : String
  lane : Nat
deriving DecidableEq, Repr, Inhabited

/-- Derived placement record (`PositionedEvent` in `Timeline.tsx`). -/
structure PositionedEvent where
  event : TimelineEvent
  percent : ℚ
  stackIndex : Nat
  clusterSize : Nat
  truncated : Bool
deriving DecidableEq, Repr, Inhabited

/-- `CLUSTER_VISIBLE_LIMIT` constant (`Timeline.tsx` line 75). -/
def CLUSTER_VISIBLE_LIMIT : Nat := 3

/-- `PROXIMITY_THRESHOLD_PCT` constant (`Timeline.tsx` line 76); 1.5 = 3/2. -/
def PROXIMITY_THRESHOLD_PCT : ℚ := 3 / 2

/-- `poleHeight` constant of the `Timeline` component (`Timeline.tsx` line 284). -/
def poleHeight : Nat := 30

/-- `stackSpacing` constant of the `Timeline` component (`Timeline.tsx` line 285). -/
def stackSpacing : Nat := 32

/-- `totalDays` as computed by the `Timeline` component (line 222):
`differenceInCalendarDays(endDate, startDate)`, i.e. the day-number
difference `endDate - startDate`. -/
def totalDaysOf (startDate endDate : Int) : Int := endDate - startDate

/-- The week-lookup loop of `dayToEvenPercent` (`Timeline.tsx` lines 27-33):
scan `i` from `weekStarts.length - 1` down to `0` and return the first `i`
with `day ≥ weekStarts[i]`; if none matches, `weekIdx` stays `0`.
`findWeekIdxAux day ws m` performs the scan over indices `m-1, …, 0`. -/
def findWeekIdxAux (day : Int) (weekStarts : List Int) : Nat → Nat
  | 0 => 0
  | m + 1 => if day ≥ weekStarts.getD m 0 then m else findWeekIdxAux day weekStarts m

/-- Index of the week a day falls in (`Timeline.tsx` lines 26-33). -/
def findWeekIdx (day : Int) (weekStarts : List Int) : Nat :=
  findWeekIdxAux day weekStarts weekStarts.length

/-- `dayToEvenPercent` (`Timeline.tsx` lines 18-46): evenly-bucketed-by-week
positioning.  Each week gets an equal share `100 / numWeeks` of the width;
within its week a day sits at the fraction `dayInWeek / weekDays`, where the
final week ends one day past `endDate`. -/
def dayToEvenPercent (day : Int) (weekStarts : List Int) (endDate : Int) : ℚ :=
  if weekStarts = [] then 0
  else
    let numWeeks := weekStarts.length
    let weekIdx := findWeekIdx day weekStarts
    let weekStart := weekStarts.getD weekIdx 0
    let weekEnd := if weekIdx < numWeeks - 1 then weekStarts.getD (weekIdx + 1) 0 else endDate + 1
    let weekDays := weekEnd - weekStart
    let dayInWeek := day - weekStart
    let fractionalPos : ℚ := if weekDays > 0 then (dayInWeek : ℚ) / (weekDays : ℚ) else 0
    let weekWidth : ℚ := 100 / (numWeeks : ℚ)
    (weekIdx : ℚ) * weekWidth + fractionalPos * weekWidth

/-- `dayToLinearPercent` (`Timeline.tsx` lines 49-57): linear day-based
positioning, `(dayIndex / totalDays) * 100`, collapsing to `0` when
`totalDays ≤ 0`. -/
def dayToLinearPercent (day : Int) (startDate : Int) (totalDays : Int) : ℚ :=
  if totalDays ≤ 0 then 0
  else (((day - startDate : Int) : ℚ) / (totalDays : ℚ)) * 100

/-- Ordered insertion of an event into a date-sorted list: the event is
placed before the first member whose date is `≥` its own.  Combined with the
right-fold of `sortByDate` this reproduces the STABLE ascending sort
`[...events].sort((a, b) => parseISO(a.date).getTime() -
parseISO(b.date).getTime())` of `getEventPositions` (`Timeline.tsx` 85-87):
events with equal dates keep their original relative order. -/
def insertByDate (x : TimelineEvent) : List TimelineEvent → List TimelineEvent
  | [] => [x]
  | y :: ys => if x.date ≤ y.date then x :: y :: ys else y :: insertByDate x ys

/-- Stable ascending-by-date sort of the event list (`Timeline.tsx` 85-87). -/
def sortByDate : List TimelineEvent → List TimelineEvent
  | [] => []
  | x :: xs => insertByDate x (sortByDate xs)

/-- One step of the cluster-formation loop (`Timeline.tsx` lines 107-118):
`cur` is the open cluster (in order) and `fp` the percentage of its FIRST
member (`lastCluster[0].percent`); an incoming event joins `cur` exactly
when `|percent - fp| < PROXIMITY_THRESHOLD_PCT`, otherwise it closes `cur`
and opens a new cluster. -/
def clusterGo (fp : ℚ) (cur : List (TimelineEvent × ℚ)) :
    List (TimelineEvent × ℚ) → List (List (TimelineEvent × ℚ))
  | [] => [cur]
  | ev :: rest =>
    if |ev.2 - fp| < PROXIMITY_THRESHOLD_PCT then clusterGo fp (cur ++ [ev]) rest
    else cur :: clusterGo ev.2 [ev] rest

/-- Cluster formation over one team's (date-sorted, percent-mapped) events
(`Timeline.tsx` lines 106-118). -/
def clusterEvents : List (TimelineEvent × ℚ) → List (List (TimelineEvent × ℚ))
  | [] => []
  | ev :: rest => clusterGo ev.2 [ev] rest

/-- Placement record for the cluster member at stack index `i` of a cluster
of size `clusterSize` (`Timeline.tsx` lines 122-129). -/
def mkPositioned (clusterSize : Nat) (i : Nat) (ev : TimelineEvent × ℚ) : PositionedEvent :=
  { event := ev.1
    percent := ev.2
    stackIndex := i
    clusterSize := clusterSize
    truncated := decide (clusterSize > CLUSTER_VISIBLE_LIMIT) && decide (i ≥ CLUSTER_VISIBLE_LIMIT) }

/-- The `cluster.forEach((ev, i) => result.push(...))` loop (`Timeline.tsx`
lines 120-131), emitting one placement record per member with its zero-based
index `i`. -/
def positionCluster (clusterSize : Nat) : Nat → List (TimelineEvent × ℚ) → List PositionedEvent
  | _, [] => []
  | i, ev :: rest => mkPositioned clusterSize i ev :: positionCluster clusterSize (i + 1) rest

/-- The outer `for (const cluster of clusters)` loop of `assignPositions`. -/
def assignClusters : List (List (TimelineEvent × ℚ)) → List PositionedEvent
  | [] => []
  | c :: cs => positionCluster c.length 0 c ++ assignClusters cs

/-- `assignPositions` (`Timeline.tsx` lines 101-134): cluster the team's
events, then emit placement records with stack indices and truncation. -/
def assignPositions (teamEvents : List (TimelineEvent × ℚ)) : List PositionedEvent :=
  assignClusters (clusterEvents teamEvents)

/-- `getEventPositions` (`Timeline.tsx` lines 78-140): sort all events by
date, map each date through the active time-axis mapper, split by team
(`red` vs everything else), and assign clustered positions per team. -/
def getEventPositions (events : List TimelineEvent) (toPercent : Int → ℚ) :
    List PositionedEvent × List PositionedEvent :=
  let sorted := sortByDate events
  let mapped := sorted.map (fun e => (e, toPercent e.date))
  let redEvents := mapped.filter (fun p => decide (p.1.team = Team.red))
  let blueEvents := mapped.filter (fun p => !(decide (p.1.team = Team.red)))
  (assignPositions redEvents, assignPositions blueEvents)

/-- Vertical offset of a non-truncated event flag in `renderEvent`
(`Timeline.tsx` lines 351-352): `poleHeight + ((lane ?? 1) - 1) *
stackSpacing`.  In this model `lane` is always present (the `?? 1` default
covers legacy documents where it may be `undefined`). -/
def renderOffset (p : PositionedEvent) : Nat :=
  poleHeight + (p.event.lane - 1) * stackSpacing

/-- One `"+N more"` overflow descriptor (`Timeline.tsx` lines 296-320). -/
structure OverflowGroup where
  percent : ℚ
  count : Nat
  offset : Nat
  events : List TimelineEvent
deriving DecidableEq, Repr

/-- The truncated placement records of `full` sharing the date `d`
(`Timeline.tsx` lines 307-309). -/
def hiddenSameDate (full : List PositionedEvent) (d : Int) : List PositionedEvent :=
  full.filter (fun r => r.truncated && decide (r.event.date = d))

/-- The overflow-collection loop (`Timeline.tsx` lines 303-318): walk the
team's placement records; at the first truncated record of each not-yet-seen
date, emit one descriptor counting all truncated records of that date. -/
def overflowsAux (full : List PositionedEvent) :
    List Int → List PositionedEvent → List OverflowGroup
  | _, [] => []
  | seen, p :: rest =>
    if p.truncated = true ∧ ¬ p.event.date ∈ seen then
      { percent := p.percent
        count := (hiddenSameDate full p.event.date).length
        offset := poleHeight + CLUSTER_VISIBLE_LIMIT * stackSpacing
        events := (hiddenSameDate full p.event.date).map (fun h => h.event) }
        :: overflowsAux full (p.event.date :: seen) rest
    else overflowsAux full seen rest

/-- Cluster-overflow aggregation for one team (`redOverflows` /
`blueOverflows`, `Timeline.tsx` lines 296-346). -/
def computeOverflows (team : List PositionedEvent) : List OverflowGroup :=
  overflowsAux team [] team

/-- JSON value as produced by `JSON.parse`.  JavaScript `undefined` (the
result of reading an absent object property) is collapsed to `Json.null`:
every check performed by the import layer treats the two identically. -/
inductive Json where
  | null
  | bool (b : Bool)
  | num (q : ℚ)
  | str (s : String)
  | arr (elems : List Json)
  | obj (props : List (String × Json))

/-- First binding of a key in an object's property list. -/
def getProp : List (String × Json) → String → Json
  | [], _ => Json.null
  | (k, v) :: rest, key => if k = key then v else getProp rest key

/-- JavaScript property access `x.key`: a named property of a non-object (or
an absent property) reads as `undefined`, collapsed here to `Json.null`. -/
def jsGet : Json → String → Json
  | Json.obj props, key => getProp props key
  | _, _ => Json.null

/-- The JavaScript test `typeof x === "object" && x !== null` (arrays also
have `typeof` `"object"`). -/
def jsTypeofObjectNotNull : Json → Bool
  | Json.obj _ => true
  | Json.arr _ => true
  | _ => false

/-- Numeric value of a decimal digit character. -/
def digitVal (c : Char) : Option Nat :=
  if c.isDigit then some (c.toNat - 48) else none

/-- Gregorian leap-year rule. -/
def isLeapYear (y : Nat) : Bool :=
  (y % 4 == 0 && !(y % 100 == 0)) || y % 400 == 0

/-- Number of days in a month of the Gregorian calendar. -/
def daysInMonth (y m : Nat) : Nat :=
  if m = 2 then (if isLeapYear y then 29 else 28)
  else if m = 4 ∨ m = 6 ∨ m = 9 ∨ m = 11 then 30
  else 31

/-- Parse of a calendar-date string `yyyy-MM-dd` into `(year, month, day)`,
validating the month range and the day against the month's length.  This
models `parseISO` + `isValid` of date-fns on the persisted document format
(spec section 6: ISO calendar date strings). -/
def parseISODate (s : String) : Option (Nat × Nat × Nat) :=
  match s.data with
  | [y1, y2, y3, y4, s1, m1, m2, s2, d1, d2] =>
    if s1 = '-' ∧ s2 = '-' then
      match digitVal y1, digitVal y2, digitVal y3, digitVal y4,
            digitVal m1, digitVal m2, digitVal d1, digitVal d2 with
      | some a, some b, some c, some d, some e, some f, some g, some h =>
        let y := ((a * 10 + b) * 10 + c) * 10 + d
        let mo := e * 10 + f
        let da := g * 10 + h
        if 1 ≤ mo ∧ mo ≤ 12 ∧ 1 ≤ da ∧ da ≤ daysInMonth y mo then some (y, mo, da)
        else none
      | _, _, _, _, _, _, _, _ => none
    else none
  | _ => none

/-- `isValidISODate` (`App.tsx` lines 173-177): the value is a string and
parses as a valid date. -/
def isValidISODate (j : Json) : Bool :=
  match j with
  | Json.str s => (parseISODate s).isSome
  | _ => false

/-- The JavaScript test `s.trim() === ""`: every character is whitespace. -/
def isBlank (s : String) : Bool := s.data.all Char.isWhitespace

/-- Stand-in for `uuidv4()`: regeneration draws a fresh opaque identifier;
only the fact of regeneration matters to the claims, so the model makes the
drawn value a deterministic function of the event index. -/
def uuidv4 (index : Nat) : String := "generated-" ++ toString index

/-- `TimelineEvent` in its serialized form (`date` still an ISO string), as
validated by `validateEvent` in `App.tsx`. -/
structure TimelineEventS where
  id : String
  date : String
  team : Team
  description : String
  lane : Nat
deriving DecidableEq, Repr, Inhabited

/-- `TimelineConfig` (`src/types.ts`). -/
structure ConfigS where
  title : String
  startDate : String
  endDate : String
deriving DecidableEq, Repr, Inhabited

/-- `AppState` (`src/types.ts`): configuration plus the flat event list. -/
structure AppStateS where
  config : ConfigS
  events : List TimelineEventS
deriving DecidableEq, Repr, Inhabited

/-- The test `e.team !== "red" && e.team !== "blue"` (`App.tsx` line 195),
returned as the parsed team on success. -/
def teamOf (j : Json) : Option Team :=
  match j with
  | Json.str s =>
    if s = "red" then some Team.red
    else if s = "blue" then some Team.blue
    else none
  | _ => none

/-- The test `typeof v === "string" && v.trim() !== ""`, used for
`config.title` (`App.tsx` line 243) and `description` (line 201). -/
def isNonBlankString (j : Json) : Bool :=
  match j with
  | Json.str s => !(isBlank s)
  | _ => false

/-- String payload of a JSON string; used only under guards that established
the value is a string (mirrors the `as string` casts in `App.tsx`). -/
def jsString (j : Json) : String :=
  match j with
  | Json.str s => s
  | _ => ""

/-- Id selection (`App.tsx` lines 207-209): keep a non-blank string id,
regenerate otherwise. -/
def pickId (j : Json) (index : Nat) : String :=
  match j with
  | Json.str s => if isBlank s then uuidv4 index else s
  | _ => uuidv4 index

/-- Lane selection (`App.tsx` lines 211-213): keep a lane that is exactly
1, 2, 3 or 4, default to 1 otherwise. -/
def pickLane (j : Json) : Nat :=
  match j with
  | Json.num n =>
    if n = 1 then 1 else if n = 2 then 2 else if n = 3 then 3 else if n = 4 then 4 else 1
  | _ => 1

/-- `validateEvent` (`App.tsx` lines 179-222). -/
def validateEvent (event : Json) (index : Nat) : Except String TimelineEventS :=
  if jsTypeofObjectNotNull event = false then
    Except.error ("Event at index " ++ toString index ++ " is not an object")
  else if isValidISODate (jsGet event ("date")) = false then
    Except.error ("Event at index " ++ toString index ++ ": \"date\" must be a valid ISO date string")
  else
    match teamOf (jsGet event ("team")) with
    | none =>
      Except.error ("Event at index " ++ toString index ++ ": \"team\" must be \"red\" or \"blue\"")
    | some team =>
      if isNonBlankString (jsGet event ("description")) = false then
        Except.error ("Event at index " ++ toString index ++ ": \"description\" must be a non-empty string")
      else
        Except.ok
          { id := pickId (jsGet event ("id")) index
            date := jsString (jsGet event ("date"))
            team := team
            description := jsString (jsGet event ("description"))
            lane := pickLane (jsGet event ("lane")) }

/-- The `data.events.map((event, i) => validateEvent(event, i))` call
(`App.tsx` lines 263-265): the first thrown validation error aborts the
whole import. -/
def validateEvents : Nat → List Json → Except String (List TimelineEventS)
  | _, [] => Except.ok []
  | index, e :: rest =>
    match validateEvent e index with
    | Except.error msg => Except.error msg
    | Except.ok v =>
      match validateEvents (index + 1) rest with
      | Except.error msg => Except.error msg
      | Except.ok vs => Except.ok (v :: vs)

/-- `importFromJson` (`App.tsx` lines 224-290), modelled from the parsed
JSON value onward (file reading and `JSON.parse` happen before it). -/
def importFromJson (data : Json) : Except String AppStateS :=
  if jsTypeofObjectNotNull data = false then
    Except.error ("JSON root must be an object")
  else if jsTypeofObjectNotNull (jsGet data ("config")) = false then
    Except.error ("Missing or invalid \"config\" object")
  else if isNonBlankString (jsGet (jsGet data ("config")) ("title")) = false then
    Except.error ("config.title must be a non-empty string")
  else if isValidISODate (jsGet (jsGet data ("config")) ("startDate")) = false then
    Except.error ("config.startDate must be a valid ISO date string")
  else if isValidISODate (jsGet (jsGet data ("config")) ("endDate")) = false then
    Except.error ("config.endDate must be a valid ISO date string")
  else
    match jsGet data ("events") with
    | Json.arr elems =>
      match validateEvents 0 elems with
      | Except.error msg => Except.error msg
      | Except.ok events =>
        Except.ok
          { config :=
              { title := jsString (jsGet (jsGet data ("config")) ("title"))
                startDate := jsString (jsGet (jsGet data ("config")) ("startDate"))
                endDate := jsString (jsGet (jsGet data ("config")) ("endDate")) }
            events := events }
    | _ => Except.error ("\"events\" must be an array")

/-- String form of a team, as serialized in the persisted document. -/
def teamToString : Team → String
  | Team.red => "red"
  | Team.blue => "blue"

/-- Modelled from the spec: serialized form of one event in the persisted
document (spec section 6, `events: [{id, date, team, description, lane}]`);
the JSON serialization performed by the export toolbar is not among the
provided sources. -/
def eventToJson (e : TimelineEventS) : Json :=
  Json.obj
    [("id", Json.str e.id),
     ("date", Json.str e.date),
     ("team", Json.str (teamToString e.team)),
     ("description", Json.str e.description),
     ("lane", Json.num (e.lane : ℚ))]

/-- Modelled from the spec: the persisted document root, `config: {title,
startDate, endDate}` plus `events` (spec section 6).  `exportState` itself
(`useTimelineState.ts` lines 144-146) is `structuredClone(state)` — a
content-identical copy — so serialization sees the state unchanged. -/
def stateToJson (st : AppStateS) : Json :=
  Json.obj
    [("config",
        Json.obj
          [("title", Json.str st.config.title),
           ("startDate", Json.str st.config.startDate),
           ("endDate", Json.str st.config.endDate)]),
     ("events", Json.arr (st.events.map eventToJson))]

/-- C6: a degenerate date range is silent, not an error: when
`totalDays ≤ 0` the linear mapper returns `0` for every day, and when the
week-start list is empty the evenly-bucketed mapper returns `0` for every
day, so every event collapses to position 0 instead of the computation
failing. -/
theorem degenerate_range_maps_to_zero (day startDate endDate totalDays : Int)
    (h : totalDays ≤ 0) :
    dayToLinearPercent day startDate totalDays = 0 ∧
    dayToEvenPercent day [] endDate = 0 := by
  constructor
  · simp [dayToLinearPercent, h]
  · simp [dayToEvenPercent]

/-- Witness for C6 at `day = 5`, `startDate = endDate` (so `totalDays = 0`). -/
theorem degenerate_range_maps_to_zero_witness :
    dayToLinearPercent 5 0 (totalDaysOf 7 7) = 0 ∧ dayToEvenPercent 5 [] 7 = 0 :=
  degenerate_range_maps_to_zero 5 0 7 (totalDaysOf 7 7) (by decide)

/-- C5: for all days within `[startDate, endDate]` the linear-by-day mapper
is monotone — `a ≤ b` implies `mapper a ≤ mapper b` — and
`mapper startDate = 0`. -/
theorem linear_mapper_monotone (startDate endDate a b : Int)
    (hab : a ≤ b) (ha : startDate ≤ a) (hb : b ≤ endDate) :
    dayToLinearPercent a startDate (totalDaysOf startDate endDate) ≤
      dayToLinearPercent b startDate (totalDaysOf startDate endDate) ∧
    dayToLinearPercent startDate startDate (totalDaysOf startDate endDate) = 0 := by
  unfold dayToLinearPercent totalDaysOf
  by_cases h : endDate - startDate ≤ 0
  · simp [h]
  · push_neg at h
    rw [if_neg (by omega), if_neg (by omega), if_neg (by omega)]
    constructor
    · have hT : (0 : ℚ) < ((endDate - startDate : Int) : ℚ) := by
        exact_mod_cast h
      have hnum : ((a - startDate : Int) : ℚ) ≤ ((b - startDate : Int) : ℚ) := by
        exact_mod_cast sub_le_sub_right hab startDate
      exact mul_le_mul_of_nonneg_right ((div_le_div_iff_of_pos_right hT).mpr hnum) (by norm_num)
    · norm_num

/-- Witness for C5 on the range `[0, 10]` with `a = 2`, `b = 5`. -/
theorem linear_mapper_monotone_witness :
    dayToLinearPercent 2 0 (totalDaysOf 0 10) ≤
      dayToLinearPercent 5 0 (totalDaysOf 0 10) ∧
    dayToLinearPercent 0 0 (totalDaysOf 0 10) = 0 :=
  linear_mapper_monotone 0 10 2 5 (by decide) (by decide) (by decide)

/-- C4 counterexample: on the two-day range `[day 0, day 1]` the code's
`totalDays` is `1` — the EXCLUSIVE difference, not the inclusive span `2` —
and the end date itself maps to `100`, which is outside the claimed
half-open interval `[0, 100)`. -/
theorem linear_total_days_counterexample :
    totalDaysOf 0 1 = 1 ∧ totalDaysOf 0 1 ≠ 2 ∧
    dayToLinearPercent 1 0 (totalDaysOf 0 1) = 100 ∧
    ¬ dayToLinearPercent 1 0 (totalDaysOf 0 1) < 100 := by
  refine ⟨rfl, by decide, ?_, ?_⟩
  · norm_num [dayToLinearPercent, totalDaysOf]
  · norm_num [dayToLinearPercent, totalDaysOf]

/-- C4 amended: the linear-by-day mapper computes
`percent = (daysSinceStart / totalDays) * 100` where `totalDays` is the
EXCLUSIVE calendar-day difference `endDate - startDate` (one less than the
inclusive day count), and for every calendar day within
`[startDate, endDate]` its output lies in the CLOSED interval `[0, 100]`,
attaining `100` exactly at the end date. -/
theorem linear_mapper_formula_and_range (startDate endDate day : Int)
    (hT : 0 < totalDaysOf startDate endDate)
    (h1 : startDate ≤ day) (h2 : day ≤ endDate) :
    dayToLinearPercent day startDate (totalDaysOf startDate endDate)
      = ((day - startDate : Int) : ℚ) / ((totalDaysOf startDate endDate : Int) : ℚ) * 100 ∧
    0 ≤ dayToLinearPercent day startDate (totalDaysOf startDate endDate) ∧
    dayToLinearPercent day startDate (totalDaysOf startDate endDate) ≤ 100 ∧
    dayToLinearPercent endDate startDate (totalDaysOf startDate endDate) = 100 := by
  unfold dayToLinearPercent totalDaysOf
  unfold totalDaysOf at hT
  rw [if_neg (by omega), if_neg (by omega)]
  have hTQ : (0 : ℚ) < ((endDate - startDate : Int) : ℚ) := by exact_mod_cast hT
  refine ⟨rfl, ?_, ?_, ?_⟩
  · have hnum : (0 : ℚ) ≤ ((day - startDate : Int) : ℚ) := by
      exact_mod_cast sub_nonneg.mpr h1
    exact mul_nonneg (div_nonneg hnum hTQ.le) (by norm_num)
  · have hfrac : ((day - startDate : Int) : ℚ) / ((endDate - startDate : Int) : ℚ) ≤ 1 := by
      rw [div_le_one hTQ]
      exact_mod_cast sub_le_sub_right h2 startDate
    calc ((day - startDate : Int) : ℚ) / ((endDate - startDate : Int) : ℚ) * 100
        ≤ 1 * 100 := mul_le_mul_of_nonneg_right hfrac (by norm_num)
      _ = 100 := by norm_num
  · rw [div_self hTQ.ne', one_mul]

/-- Witness for the amended C4 on the range `[0, 10]` at `day = 3`. -/
theorem linear_mapper_formula_and_range_witness :
    0 ≤ dayToLinearPercent 3 0 (totalDaysOf 0 10) ∧
    dayToLinearPercent 3 0 (totalDaysOf 0 10) ≤ 100 ∧
    dayToLinearPercent 10 0 (totalDaysOf 0 10) = 100 :=
  (linear_mapper_formula_and_range 0 10 3 (by decide) (by decide) (by decide)).2

/-- Length in days of week `i` (`Timeline.tsx` lines 37-39): from its week
start up to the next week start, or — for the final week — up to one day
past `endDate`. -/
def weekLength (ws : List Int) (endDate : Int) (i : Nat) : Int :=
  (if i < ws.length - 1 then ws.getD (i + 1) 0 else endDate + 1) - ws.getD i 0

/-- A strictly increasing week-start list is strictly increasing at any two
in-range positions. -/
theorem sorted_getD_lt (ws : List Int) (hchain : List.Chain' (fun a b => a < b) ws)
    (j k : Nat) (hjk : j < k) (hk : k < ws.length) : ws.getD j 0 < ws.getD k 0 := by
  have hpw := List.chain'_iff_pairwise.mp hchain
  have hj : j < ws.length := by omega
  have := List.pairwise_iff_get.mp hpw ⟨j, hj⟩ ⟨k, hk⟩ hjk
  simpa [List.getD_eq_getElem?_getD, List.getElem?_eq_getElem, hj, hk,
    List.get_eq_getElem] using this

/-- The downward scan of `dayToEvenPercent` returns `i` as soon as
`weekStarts[i] ≤ day` while every later week start is still in the future. -/
theorem findWeekIdxAux_eq_of (day : Int) (ws : List Int) (i : Nat)
    (hle : ws.getD i 0 ≤ day)
    (hgt : ∀ j, i < j → j < ws.length → day < ws.getD j 0) :
    ∀ m, i < m → m ≤ ws.length → findWeekIdxAux day ws m = i := by
  intro m
  induction m with
  | zero => intro h1 _; exact absurd h1 (Nat.not_lt_zero i)
  | succ k ih =>
    intro h1 h2
    simp only [findWeekIdxAux]
    by_cases hd : day ≥ ws.getD k 0
    · rw [if_pos hd]
      rcases Nat.lt_or_ge i k with hik | hik
      · exact absurd (hgt k hik (by omega)) (not_lt.mpr hd)
      · omega
    · rw [if_neg hd]
      push_neg at hd
      have hik : i < k := by
        rcases Nat.lt_or_ge i k with h | h
        · exact h
        · exfalso
          rcases Nat.eq_or_lt_of_le h with he | hlt
          · rw [he] at hd; exact absurd hle (not_le.mpr hd)
          · omega
      exact ih hik (by omega)

/-- Week lookup for a day that lies in week `i` of a strictly increasing
week-start list. -/
theorem findWeekIdx_eq (ws : List Int) (day : Int) (i : Nat)
    (hchain : List.Chain' (fun a b => a < b) ws)
    (hi : i < ws.length)
    (hlo : ws.getD i 0 ≤ day)
    (hnext : i + 1 < ws.length → day < ws.getD (i + 1) 0) :
    findWeekIdx day ws = i := by
  have hgt : ∀ j, i < j → j < ws.length → day < ws.getD j 0 := by
    intro j hij hj
    have hnx : day < ws.getD (i + 1) 0 := hnext (by omega)
    rcases Nat.eq_or_lt_of_le hij with he | hlt
    · rw [← he] at hj ⊢; exact hnx
    · exact lt_of_lt_of_le hnx (le_of_lt (sorted_getD_lt ws hchain (i + 1) j hlt hj))
  exact findWeekIdxAux_eq_of day ws i hlo hgt ws.length hi le_rfl

/-- Unfolded form of `dayToEvenPercent` once the week index is known. -/
theorem dayToEvenPercent_eq_of_idx (ws : List Int) (endDate day : Int) (i : Nat)
    (hne : ws ≠ [])
    (hidx : findWeekIdx day ws = i)
    (hlen : 0 < weekLength ws endDate i) :
    dayToEvenPercent day ws endDate
      = (i : ℚ) * (100 / (ws.length : ℚ))
        + ((day - ws.getD i 0 : Int) : ℚ) / ((weekLength ws endDate i : Int) : ℚ)
          * (100 / (ws.length : ℚ)) := by
  unfold dayToEvenPercent
  rw [if_neg hne]
  simp only [hidx]
  unfold weekLength at hlen ⊢
  rw [if_pos hlen]

/-- C3: under the evenly-bucketed-by-week policy every week occupies exactly
`100 / numWeeks` percent of the width regardless of its day count — week
boundary `j` sits at exactly `j * (100 / numWeeks)` and a day of week `i`
stays inside week `i`'s slot — and a day's position equals
`weekIndex * weekWidth + (daysIntoWeek / weekLengthInDays) * weekWidth`,
where the day belongs to the LAST week start `≤` it and the final week's
length runs one day past the configured end date. -/
theorem even_bucket_week_layout (ws : List Int) (endDate day : Int) (i : Nat)
    (hchain : List.Chain' (fun a b => a < b) ws)
    (hi : i < ws.length)
    (hlo : ws.getD i 0 ≤ day)
    (hnext : i + 1 < ws.length → day < ws.getD (i + 1) 0)
    (hlen : 0 < weekLength ws endDate i)
    (hend : day < ws.getD i 0 + weekLength ws endDate i) :
    dayToEvenPercent day ws endDate
      = (i : ℚ) * (100 / (ws.length : ℚ))
        + ((day - ws.getD i 0 : Int) : ℚ) / ((weekLength ws endDate i : Int) : ℚ)
          * (100 / (ws.length : ℚ)) ∧
    (i : ℚ) * (100 / (ws.length : ℚ)) ≤ dayToEvenPercent day ws endDate ∧
    dayToEvenPercent day ws endDate < ((i : ℚ) + 1) * (100 / (ws.length : ℚ)) ∧
    (∀ j, j < ws.length →
      dayToEvenPercent (ws.getD j 0) ws endDate = (j : ℚ) * (100 / (ws.length : ℚ))) := by
  have hne : ws ≠ [] := List.ne_nil_of_length_pos (by omega)
  have hidx : findWeekIdx day ws = i := findWeekIdx_eq ws day i hchain hi hlo hnext
  have hmain := dayToEvenPercent_eq_of_idx ws endDate day i hne hidx hlen
  have hwpos : (0 : ℚ) < 100 / (ws.length : ℚ) := by
    apply div_pos (by norm_num)
    exact_mod_cast Nat.pos_of_ne_zero (by intro h0; exact hne (List.length_eq_zero.mp h0))
  have hLpos : (0 : ℚ) < ((weekLength ws endDate i : Int) : ℚ) := by exact_mod_cast hlen
  have hfrac0 : (0 : ℚ) ≤ ((day - ws.getD i 0 : Int) : ℚ) / ((weekLength ws endDate i : Int) : ℚ) := by
    apply div_nonneg _ hLpos.le
    exact_mod_cast sub_nonneg.mpr hlo
  have hfrac1 : ((day - ws.getD i 0 : Int) : ℚ) / ((weekLength ws endDate i : Int) : ℚ) < 1 := by
    rw [div_lt_one hLpos]
    exact_mod_cast by omega
  refine ⟨hmain, ?_, ?_, ?_⟩
  · rw [hmain]
    nlinarith [mul_nonneg hfrac0 hwpos.le]
  · rw [hmain]
    nlinarith [mul_lt_mul_of_pos_right hfrac1 hwpos]
  · intro j hj
    have hjne : findWeekIdx (ws.getD j 0) ws = j := by
      apply findWeekIdx_eq ws (ws.getD j 0) j hchain hj le_rfl
      intro hj1
      exact sorted_getD_lt ws hchain j (j + 1) (by omega) hj1
    unfold dayToEvenPercent
    rw [if_neg hne]
    simp only [hjne, sub_self]
    split
    · simp
    · simp

/-- Witness for C3: week starts at days 0, 7, 14, end date day 16, day 9
lies in week 1 (the second week). -/
theorem even_bucket_week_layout_witness :
    ((1 : Nat) : ℚ) * (100 / (([0, 7, 14] : List Int).length : ℚ))
      ≤ dayToEvenPercent 9 [0, 7, 14] 16 :=
  (even_bucket_week_layout [0, 7, 14] 16 9 1 (by simp) (by decide) (by decide)
    (by decide) (by decide) (by decide)).2.1

/-- C7 counterexample: two same-cluster red events on lanes 1 and 3 — both
placement records sit in one cluster of size 2, but their vertical offsets
are 30 and 94, which differ by 64 = 2 × stackSpacing, not by exactly
`stackSpacing` (32) as the claim states for ANY two different lanes. -/
theorem lane_offset_counterexample :
    (getEventPositions
        [⟨"a", 0, Team.red, "recon", 1⟩, ⟨"b", 0, Team.red, "phish", 3⟩]
        (fun d => dayToLinearPercent d 0 10)).1.map
        (fun p => (p.clusterSize, renderOffset p))
      = [(2, 30), (2, 94)] ∧
    ¬ (94 - 30 : Int).natAbs = stackSpacing := by
  constructor
  · norm_num [getEventPositions, sortByDate, insertByDate, dayToLinearPercent,
      assignPositions, clusterEvents, clusterGo, assignClusters, positionCluster,
      mkPositioned, renderOffset, poleHeight, stackSpacing, CLUSTER_VISIBLE_LIMIT,
      PROXIMITY_THRESHOLD_PCT]
  · decide

/-- C7 amended: the vertical offset of a non-truncated event equals
`poleBaseHeight + (lane - 1) * stackSpacing`, determined by the event's own
declared lane (1–4) and not by its cluster `stackIndex` (equal lanes give
equal offsets whatever the stack indices); two events on different lanes are
never merged into one stack slot — their offsets differ by exactly
`|laneA - laneB| * stackSpacing`, a nonzero multiple of `stackSpacing`
(equal to `stackSpacing` itself exactly for adjacent lanes). -/
theorem render_offset_lane_rule (p q : PositionedEvent)
    (hp1 : 1 ≤ p.event.lane) (hp4 : p.event.lane ≤ 4)
    (hq1 : 1 ≤ q.event.lane) (hq4 : q.event.lane ≤ 4) :
    renderOffset p = poleHeight + (p.event.lane - 1) * stackSpacing ∧
    (p.event.lane = q.event.lane → renderOffset p = renderOffset q) ∧
    (p.event.lane ≠ q.event.lane →
      renderOffset p ≠ renderOffset q ∧
      ((renderOffset p : Int) - (renderOffset q : Int)).natAbs
        = ((p.event.lane : Int) - (q.event.lane : Int)).natAbs * stackSpacing) := by
  unfold renderOffset poleHeight stackSpacing
  refine ⟨rfl, fun h => by rw [h], fun hne => ⟨?_, ?_⟩⟩
  · omega
  · omega

/-- Witness for the amended C7 at lanes 1 and 3 (stack indices 0 and 1). -/
theorem render_offset_lane_rule_witness :
    renderOffset ⟨⟨"a", 0, Team.red, "recon", 1⟩, 0, 0, 2, false⟩
      ≠ renderOffset ⟨⟨"b", 0, Team.red, "phish", 3⟩, 0, 1, 2, false⟩ :=
  ((render_offset_lane_rule
      ⟨⟨"a", 0, Team.red, "recon", 1⟩, 0, 0, 2, false⟩
      ⟨⟨"b", 0, Team.red, "phish", 3⟩, 0, 1, 2, false⟩
      (by decide) (by decide) (by decide) (by decide)).2.2 (by decide)).1

/-- Percentage of a cluster's first member (`lastCluster[0].percent`). -/
def firstPercent (c : List (TimelineEvent × ℚ)) : ℚ := c.headI.2

/-- The proximity threshold is positive. -/
theorem threshold_pos : (0 : ℚ) < PROXIMITY_THRESHOLD_PCT := by
  norm_num [PROXIMITY_THRESHOLD_PCT]

/-- First member of a grown cluster is unchanged. -/
theorem firstPercent_append (cur l : List (TimelineEvent × ℚ)) (h : cur ≠ []) :
    firstPercent (cur ++ l) = firstPercent cur := by
  cases cur with
  | nil => exact absurd rfl h
  | cons a as => simp [firstPercent]

/-- Invariant of the cluster-formation loop: starting from a nonempty open
cluster whose members all lie within the threshold of its first member, the
loop emits only nonempty clusters, each cluster's members lie strictly
within the threshold of that cluster's FIRST member, consecutive clusters
have first members at least the threshold apart, and the first emitted
cluster keeps the open cluster's first member. -/
theorem clusterGo_props (rest : List (TimelineEvent × ℚ)) :
    ∀ fp cur, cur ≠ [] → firstPercent cur = fp →
      (∀ ev ∈ cur, |ev.2 - fp| < PROXIMITY_THRESHOLD_PCT) →
      clusterGo fp cur rest ≠ [] ∧
      firstPercent ((clusterGo fp cur rest).headI) = fp ∧
      (∀ c ∈ clusterGo fp cur rest, c ≠ []) ∧
      (∀ c ∈ clusterGo fp cur rest, ∀ ev ∈ c,
        |ev.2 - firstPercent c| < PROXIMITY_THRESHOLD_PCT) ∧
      List.Chain' (fun c d => PROXIMITY_THRESHOLD_PCT ≤ |firstPercent d - firstPercent c|)
        (clusterGo fp cur rest) := by
  induction rest with
  | nil =>
    intro fp cur hne hfp hmem
    simp only [clusterGo]
    refine ⟨by simp, by simpa [List.headI] using hfp, ?_, ?_, by simp⟩
    · intro c hc
      simp only [List.mem_singleton] at hc
      subst hc; exact hne
    · intro c hc ev hev
      simp only [List.mem_singleton] at hc
      subst hc
      rw [hfp]
      exact hmem ev hev
  | cons ev rest ih =>
    intro fp cur hne hfp hmem
    simp only [clusterGo]
    by_cases hcond : |ev.2 - fp| < PROXIMITY_THRESHOLD_PCT
    · rw [if_pos hcond]
      apply ih fp (cur ++ [ev])
      · simp
      · rw [firstPercent_append cur [ev] hne]; exact hfp
      · intro e he
        rcases List.mem_append.mp he with h | h
        · exact hmem e h
        · simp only [List.mem_singleton] at h
          subst h; exact hcond
    · rw [if_neg hcond]
      obtain ⟨hLne, hLhead, hLclne, hLclmem, hLchain⟩ :=
        ih ev.2 [ev] (by simp) (by simp [firstPercent])
          (by
            intro e he
            simp only [List.mem_singleton] at he
            subst he
            simpa using threshold_pos)
      refine ⟨by simp, by simpa [List.headI] using hfp, ?_, ?_, ?_⟩
      · intro c hc
        rcases List.mem_cons.mp hc with h | h
        · subst h; exact hne
        · exact hLclne c h
      · intro c hc e he
        rcases List.mem_cons.mp hc with h | h
        · subst h
          rw [hfp]
          exact hmem e he
        · exact hLclmem c h e he
      · rw [List.chain'_cons']
        refine ⟨?_, hLchain⟩
        intro b hb
        cases hL : clusterGo ev.2 [ev] rest with
        | nil => exact absurd hL hLne
        | cons c0 cs =>
          rw [hL] at hb
          simp only [List.head?_cons, Option.mem_some_iff] at hb
          subst hb
          rw [hL] at hLhead
          simp only [List.headI] at hLhead
          rw [hLhead, hfp]
          exact not_lt.mp hcond

/-- Cluster-formation facts over any team event list: clusters are nonempty,
member distances are measured against the cluster's FIRST member, and
consecutive clusters open at least the threshold apart. -/
theorem clusterEvents_props (l : List (TimelineEvent × ℚ)) :
    (∀ c ∈ clusterEvents l, c ≠ []) ∧
    (∀ c ∈ clusterEvents l, ∀ ev ∈ c,
      |ev.2 - firstPercent c| < PROXIMITY_THRESHOLD_PCT) ∧
    List.Chain' (fun c d => PROXIMITY_THRESHOLD_PCT ≤ |firstPercent d - firstPercent c|)
      (clusterEvents l) := by
  cases l with
  | nil => simp [clusterEvents]
  | cons ev rest =>
    obtain ⟨_, _, h3, h4, h5⟩ :=
      clusterGo_props rest ev.2 [ev] (by simp) (by simp [firstPercent])
        (by
          intro e he
          simp only [List.mem_singleton] at he
          subst he
          simpa using threshold_pos)
    exact ⟨h3, h4, h5⟩

/-- C1: cluster formation is anchored to each cluster's first member — every
member of a cluster is strictly within 1.5 percentage points of the
cluster's FIRST member, and each new cluster opens at least 1.5 away from
the previous cluster's first member; on red events at percentages
`[0, 1, 2.9]` the first two share a cluster of size 2 and the third starts a
fresh cluster, although 2.9 is only 1.9 away from its immediate
predecessor. -/
theorem cluster_formation_anchored (tes : List (TimelineEvent × ℚ)) :
    (clusterEvents tes).Forall (fun c => c ≠ []) ∧
    (clusterEvents tes).Forall
      (fun c => c.Forall (fun ev => |ev.2 - firstPercent c| < PROXIMITY_THRESHOLD_PCT)) ∧
    List.Chain' (fun c d => PROXIMITY_THRESHOLD_PCT ≤ |firstPercent d - firstPercent c|)
      (clusterEvents tes) ∧
    (getEventPositions
        [⟨"e1", 0, Team.red, "r1", 1⟩, ⟨"e2", 10, Team.red, "r2", 1⟩,
         ⟨"e3", 29, Team.red, "r3", 1⟩]
        (fun d => dayToLinearPercent d 0 1000)).1.map
        (fun p => (p.percent, p.stackIndex, p.clusterSize))
      = [(0, 0, 2), (1, 1, 2), (29/10, 0, 1)] ∧
    PROXIMITY_THRESHOLD_PCT ≤ |(29 : ℚ)/10 - 1| := by
  obtain ⟨h1, h2, h3⟩ := clusterEvents_props tes
  refine ⟨List.forall_iff_forall_mem.mpr h1, ?_, h3, ?_, ?_⟩
  · apply List.forall_iff_forall_mem.mpr
    intro c hc
    exact List.forall_iff_forall_mem.mpr (h2 c hc)
  · norm_num [getEventPositions, sortByDate, insertByDate, dayToLinearPercent,
      assignPositions, clusterEvents, clusterGo, assignClusters, positionCluster,
      mkPositioned, CLUSTER_VISIBLE_LIMIT, PROXIMITY_THRESHOLD_PCT, abs_of_nonneg]
  · norm_num [PROXIMITY_THRESHOLD_PCT, abs_of_nonneg]

/-- Truncation rule for a record emitted by the per-cluster loop: the stored
`truncated` flag is set exactly when the record's own `clusterSize` exceeds
the visible limit and its own `stackIndex` reached the limit. -/
theorem truncated_iff_of_mem_positionCluster (n : Nat) :
    ∀ (i : Nat) (c : List (TimelineEvent × ℚ)) (p : PositionedEvent),
      p ∈ positionCluster n i c →
      (p.truncated = true ↔
        CLUSTER_VISIBLE_LIMIT < p.clusterSize ∧ CLUSTER_VISIBLE_LIMIT ≤ p.stackIndex) := by
  intro i c
  induction c generalizing i with
  | nil => intro p hp; simp [positionCluster] at hp
  | cons ev rest ih =>
    intro p hp
    rcases List.mem_cons.mp hp with h | h
    · subst h
      simp [mkPositioned, Bool.and_eq_true, decide_eq_true_iff]
    · exact ih (i + 1) p h

/-- Truncation rule over the whole per-team output. -/
theorem truncated_iff_of_mem_assign (tes : List (TimelineEvent × ℚ)) :
    ∀ p ∈ assignPositions tes,
      (p.truncated = true ↔
        CLUSTER_VISIBLE_LIMIT < p.clusterSize ∧ CLUSTER_VISIBLE_LIMIT ≤ p.stackIndex) := by
  unfold assignPositions
  generalize clusterEvents tes = cs
  induction cs with
  | nil => intro p hp; simp [assignClusters] at hp
  | cons c rest ih =>
    intro p hp
    rcases List.mem_append.mp hp with h | h
    · exact truncated_iff_of_mem_positionCluster c.length 0 c p h
    · exact ih p h

/-- Stack indices of one cluster's records: consecutive from `i`, with the
cluster's size recorded on every member. -/
theorem positionCluster_map_idx (n : Nat) :
    ∀ (i : Nat) (c : List (TimelineEvent × ℚ)),
      (positionCluster n i c).map (fun p => (p.stackIndex, p.clusterSize))
        = (List.range' i c.length).map (fun j => (j, n)) := by
  intro i c
  induction c generalizing i with
  | nil => simp [positionCluster]
  | cons ev rest ih =>
    simp [positionCluster, mkPositioned, List.range'_succ, ih]

/-- Stack indices over the whole per-team output: cluster by cluster, the
records carry indices `0, 1, …, size-1` together with their cluster's size. -/
theorem assignClusters_map_idx (cs : List (List (TimelineEvent × ℚ))) :
    (assignClusters cs).map (fun p => (p.stackIndex, p.clusterSize))
      = cs.flatMap (fun c => (List.range c.length).map (fun j => (j, c.length))) := by
  induction cs with
  | nil => simp [assignClusters]
  | cons c rest ih =>
    simp [assignClusters, positionCluster_map_idx, ih, List.range_eq_range']

/-- Every emitted overflow descriptor is the date-group of some date: its
count and hidden-event list are those of the truncated records sharing one
date, and its offset sits one slot past the last visible stack slot. -/
theorem overflowsAux_shape (full : List PositionedEvent) :
    ∀ (seen : List Int) (rest : List PositionedEvent), ∀ o ∈ overflowsAux full seen rest,
      ∃ d, o.count = (hiddenSameDate full d).length ∧
        o.events = (hiddenSameDate full d).map (fun h => h.event) ∧
        o.offset = poleHeight + CLUSTER_VISIBLE_LIMIT * stackSpacing := by
  intro seen rest
  induction rest generalizing seen with
  | nil => intro o ho; simp [overflowsAux] at ho
  | cons p rest ih =>
    intro o ho
    rw [overflowsAux] at ho
    split at ho
    · rcases List.mem_cons.mp ho with h | h
      · subst h
        exact ⟨p.event.date, rfl, rfl, rfl⟩
      · exact ih _ o h
    · exact ih seen o ho

/-- Five red events on one day: the truncation/overflow example of C2. -/
def fiveSameDate : List TimelineEvent :=
  [⟨"f1", 0, Team.red, "a1", 1⟩, ⟨"f2", 0, Team.red, "a2", 1⟩,
   ⟨"f3", 0, Team.red, "a3", 1⟩, ⟨"f4", 0, Team.red, "a4", 1⟩,
   ⟨"f5", 0, Team.red, "a5", 1⟩]

/-- Red placement records of the five same-day events under the linear
mapper on the range `[0, 10]`. -/
def fiveSameDateRed : List PositionedEvent :=
  (getEventPositions fiveSameDate (fun d => dayToLinearPercent d 0 10)).1

/-- Five red events on days 0, 0, 0, 1, 2 of the range `[0, 1000]`: their
percentages 0, 0, 0, 1/10, 1/5 all lie within 1.5 of the first member, so
they form ONE cluster of five — but the two truncated members fall on two
DIFFERENT dates. -/
def mixedDateCluster : List TimelineEvent :=
  [⟨"g1", 0, Team.red, "b1", 1⟩, ⟨"g2", 0, Team.red, "b2", 1⟩,
   ⟨"g3", 0, Team.red, "b3", 1⟩, ⟨"g4", 1, Team.red, "b4", 1⟩,
   ⟨"g5", 2, Team.red, "b5", 1⟩]

/-- Red placement records of the mixed-date cluster. -/
def mixedDateRed : List PositionedEvent :=
  (getEventPositions mixedDateCluster (fun d => dayToLinearPercent d 0 1000)).1

/-- C2 counterexample: overflow aggregation groups hidden records by EVENT
DATE, not by cluster — a cluster of 5 same-team events whose members span
several dates yields TWO overflow descriptors of count 1 each, not exactly
one descriptor with count 2 as the claim states for any cluster of 5. -/
theorem cluster_overflow_counterexample :
    mixedDateRed.map (fun p => p.clusterSize) = [5, 5, 5, 5, 5] ∧
    (mixedDateRed.filter (fun p => !p.truncated)).length = 3 ∧
    (computeOverflows mixedDateRed).map (fun o => o.count) = [1, 1] ∧
    ¬ (computeOverflows mixedDateRed).map (fun o => o.count) = [2] := by
  have hred : mixedDateRed
      = [⟨⟨"g1", 0, Team.red, "b1", 1⟩, 0, 0, 5, false⟩,
         ⟨⟨"g2", 0, Team.red, "b2", 1⟩, 0, 1, 5, false⟩,
         ⟨⟨"g3", 0, Team.red, "b3", 1⟩, 0, 2, 5, false⟩,
         ⟨⟨"g4", 1, Team.red, "b4", 1⟩, 1/10, 3, 5, true⟩,
         ⟨⟨"g5", 2, Team.red, "b5", 1⟩, 1/5, 4, 5, true⟩] := by
    norm_num [mixedDateRed, mixedDateCluster, getEventPositions, sortByDate,
      insertByDate, dayToLinearPercent, assignPositions, clusterEvents, clusterGo,
      assignClusters, positionCluster, mkPositioned, CLUSTER_VISIBLE_LIMIT,
      PROXIMITY_THRESHOLD_PCT, abs_of_nonneg]
  rw [hred]
  refine ⟨by decide, by decide, ?_, ?_⟩
  · decide
  · decide

/-- One already-truncated placement record, used to instantiate the overflow
date-group property on a concrete input. -/
def truncFixture : List PositionedEvent :=
  [⟨⟨"x", 5, Team.red, "d", 1⟩, 0, 3, 5, true⟩]

/-- C2 amended: within every cluster members receive a zero-based
`stackIndex` in cluster order, and `truncated` is set exactly when the
cluster's size exceeds 3 and the member's index is ≥ 3.  Overflow
descriptors aggregate hidden records BY EVENT DATE — each descriptor's
count and hidden-event list are those of the truncated records sharing one
date, offset one slot past the last visible stack slot — so a cluster of 5
same-team events yields exactly 3 visible placement records, and exactly one
overflow descriptor with count = 2 anchored at the cluster's percentage when
the five share one date (hidden members spanning several dates yield one
descriptor per date instead). -/
theorem stacking_truncation_overflow (tes : List (TimelineEvent × ℚ))
    (full : List PositionedEvent) :
    (assignPositions tes).Forall
      (fun p => p.truncated = true ↔
        CLUSTER_VISIBLE_LIMIT < p.clusterSize ∧ CLUSTER_VISIBLE_LIMIT ≤ p.stackIndex) ∧
    (assignPositions tes).map (fun p => (p.stackIndex, p.clusterSize))
      = (clusterEvents tes).flatMap
          (fun c => (List.range c.length).map (fun j => (j, c.length))) ∧
    (∀ o ∈ computeOverflows full,
      ∃ d, o.count = (hiddenSameDate full d).length ∧
        o.events = (hiddenSameDate full d).map (fun h => h.event) ∧
        o.offset = poleHeight + CLUSTER_VISIBLE_LIMIT * stackSpacing) ∧
    (fiveSameDateRed.filter (fun p => !p.truncated)).length = 3 ∧
    computeOverflows fiveSameDateRed
      = [⟨0, 2, 126, [⟨"f4", 0, Team.red, "a4", 1⟩, ⟨"f5", 0, Team.red, "a5", 1⟩]⟩] := by
  have hred : fiveSameDateRed
      = [⟨⟨"f1", 0, Team.red, "a1", 1⟩, 0, 0, 5, false⟩,
         ⟨⟨"f2", 0, Team.red, "a2", 1⟩, 0, 1, 5, false⟩,
         ⟨⟨"f3", 0, Team.red, "a3", 1⟩, 0, 2, 5, false⟩,
         ⟨⟨"f4", 0, Team.red, "a4", 1⟩, 0, 3, 5, true⟩,
         ⟨⟨"f5", 0, Team.red, "a5", 1⟩, 0, 4, 5, true⟩] := by
    norm_num [fiveSameDateRed, fiveSameDate, getEventPositions, sortByDate,
      insertByDate, dayToLinearPercent, assignPositions, clusterEvents, clusterGo,
      assignClusters, positionCluster, mkPositioned, CLUSTER_VISIBLE_LIMIT,
      PROXIMITY_THRESHOLD_PCT, abs_of_nonneg]
  refine ⟨List.forall_iff_forall_mem.mpr (truncated_iff_of_mem_assign tes),
    assignClusters_map_idx (clusterEvents tes),
    overflowsAux_shape full [] full, ?_, ?_⟩
  · rw [hred]; decide
  · rw [hred]; decide

/-- Witness for the amended C2: the overflow date-group property applied to
the descriptor computed from `truncFixture`. -/
theorem stacking_truncation_overflow_witness :
    ∃ d, (⟨0, 1, 126, [⟨"x", 5, Team.red, "d", 1⟩]⟩ : OverflowGroup).count
        = (hiddenSameDate truncFixture d).length ∧
      (⟨0, 1, 126, [⟨"x", 5, Team.red, "d", 1⟩]⟩ : OverflowGroup).events
        = (hiddenSameDate truncFixture d).map (fun h => h.event) ∧
      (⟨0, 1, 126, [⟨"x", 5, Team.red, "d", 1⟩]⟩ : OverflowGroup).offset
        = poleHeight + CLUSTER_VISIBLE_LIMIT * stackSpacing :=
  (stacking_truncation_overflow [] truncFixture).2.2.1
    ⟨0, 1, 126, [⟨"x", 5, Team.red, "d", 1⟩]⟩ (by decide)

/-- Ordered insertion produces a permutation of consing. -/
theorem insertByDate_perm (x : TimelineEvent) (l : List TimelineEvent) :
    (insertByDate x l).Perm (x :: l) := by
  induction l with
  | nil => simp [insertByDate]
  | cons y ys ih =>
    rw [insertByDate]
    split
    · exact List.Perm.refl _
    · exact (ih.cons y).trans (List.Perm.swap x y ys)

/-- The date sort permutes the event list. -/
theorem sortByDate_perm (l : List TimelineEvent) : (sortByDate l).Perm l := by
  induction l with
  | nil => simp [sortByDate]
  | cons x xs ih => exact (insertByDate_perm x (sortByDate xs)).trans (ih.cons x)

/-- The cluster loop neither drops nor duplicates events: flattening its
output returns the open cluster followed by the remaining input. -/
theorem clusterGo_flatten (rest : List (TimelineEvent × ℚ)) :
    ∀ fp cur, (clusterGo fp cur rest).flatten = cur ++ rest := by
  induction rest with
  | nil => intro fp cur; simp [clusterGo]
  | cons ev rest ih =>
    intro fp cur
    rw [clusterGo]
    split
    · rw [ih]; simp
    · simp [ih]

/-- Flattening the clusters returns the team's event sequence unchanged. -/
theorem clusterEvents_flatten (tes : List (TimelineEvent × ℚ)) :
    (clusterEvents tes).flatten = tes := by
  cases tes with
  | nil => simp [clusterEvents]
  | cons ev rest => simp [clusterEvents, clusterGo_flatten]

/-- The per-cluster loop emits exactly its cluster's events, in order. -/
theorem positionCluster_map_event (n : Nat) :
    ∀ (i : Nat) (c : List (TimelineEvent × ℚ)),
      (positionCluster n i c).map (fun p => p.event) = c.map (fun ev => ev.1) := by
  intro i c
  induction c generalizing i with
  | nil => simp [positionCluster]
  | cons ev rest ih => simp [positionCluster, mkPositioned, ih]

/-- The per-team output carries exactly the flattened clusters' events. -/
theorem assignClusters_map_event (cs : List (List (TimelineEvent × ℚ))) :
    (assignClusters cs).map (fun p => p.event) = cs.flatten.map (fun ev => ev.1) := by
  induction cs with
  | nil => simp [assignClusters]
  | cons c rest ih => simp [assignClusters, positionCluster_map_event, ih]

/-- Projecting the first components of a filtered pairing recovers the
plain filter. -/
theorem map_pair_filter_fst (l : List TimelineEvent) (f : TimelineEvent → ℚ)
    (q : TimelineEvent → Bool) :
    ((l.map (fun e => (e, f e))).filter (fun p => q p.1)).map (fun p => p.1)
      = l.filter q := by
  induction l with
  | nil => simp
  | cons e rest ih =>
    by_cases hq : q e
    · simp [hq, ih]
    · simp [hq, ih]

/-- The per-team output lists one placement record per team event. -/
theorem assignPositions_map_event (tes : List (TimelineEvent × ℚ)) :
    (assignPositions tes).map (fun p => p.event) = tes.map (fun ev => ev.1) := by
  rw [assignPositions, assignClusters_map_event, clusterEvents_flatten]

/-- C10: the Event Position Resolver neither drops nor duplicates events —
the red output's underlying events are exactly (a permutation of) the
team-red input events, the blue output's are exactly the remaining input
events, and together the two outputs carry each input event record, itself
unmodified, exactly once. -/
theorem resolver_partitions_events (events : List TimelineEvent) (toPercent : Int → ℚ) :
    ((getEventPositions events toPercent).1.map (fun p => p.event)).Perm
      (events.filter (fun e => decide (e.team = Team.red))) ∧
    ((getEventPositions events toPercent).2.map (fun p => p.event)).Perm
      (events.filter (fun e => !(decide (e.team = Team.red)))) ∧
    ((getEventPositions events toPercent).1.map (fun p => p.event)
      ++ (getEventPositions events toPercent).2.map (fun p => p.event)).Perm events := by
  have hs : (sortByDate events).Perm events := sortByDate_perm events
  have hred : (getEventPositions events toPercent).1.map (fun p => p.event)
      = (sortByDate events).filter (fun e => decide (e.team = Team.red)) := by
    simp only [getEventPositions]
    rw [assignPositions_map_event]
    exact map_pair_filter_fst (sortByDate events) (fun e => toPercent e.date)
      (fun e => decide (e.team = Team.red))
  have hblue : (getEventPositions events toPercent).2.map (fun p => p.event)
      = (sortByDate events).filter (fun e => !(decide (e.team = Team.red))) := by
    simp only [getEventPositions]
    rw [assignPositions_map_event]
    exact map_pair_filter_fst (sortByDate events) (fun e => toPercent e.date)
      (fun e => !(decide (e.team = Team.red)))
  refine ⟨?_, ?_, ?_⟩
  · rw [hred]; exact hs.filter _
  · rw [hblue]; exact hs.filter _
  · rw [hred, hblue]
    exact (List.filter_append_perm _ (sortByDate events)).trans hs

/-- A successfully validated event records exactly the selected id, date,
description and lane of its JSON source. -/
theorem validateEvent_ok_fields (e : Json) (i : Nat) (v : TimelineEventS)
    (h : validateEvent e i = Except.ok v) :
    v.id = pickId (jsGet e ("id")) i ∧
    v.date = jsString (jsGet e ("date")) ∧
    v.description = jsString (jsGet e ("description")) ∧
    v.lane = pickLane (jsGet e ("lane")) := by
  unfold validateEvent at h
  split at h
  · exact absurd h (by simp)
  · split at h
    · exact absurd h (by simp)
    · split at h
      · exact absurd h (by simp)
      · split at h
        · exact absurd h (by simp)
        · injection h with h2
          subst h2
          exact ⟨rfl, rfl, rfl, rfl⟩

/-- A successful event-list validation validates every event at its own
index. -/
theorem validateEvents_ok_nth :
    ∀ (elems : List Json) (k : Nat) (vs : List TimelineEventS),
      validateEvents k elems = Except.ok vs →
      ∀ i, i < elems.length →
        ∃ v, validateEvent (elems.getD i Json.null) (k + i) = Except.ok v := by
  intro elems
  induction elems with
  | nil => intro k vs _ i hi; simp at hi
  | cons e rest ih =>
    intro k vs h i hi
    rw [validateEvents] at h
    cases hv : validateEvent e k with
    | error msg => rw [hv] at h; exact absurd h (by simp)
    | ok v =>
      rw [hv] at h
      cases hvs : validateEvents (k + 1) rest with
      | error msg => rw [hvs] at h; exact absurd h (by simp)
      | ok ws =>
        cases i with
        | zero => exact ⟨v, by simpa using hv⟩
        | succ n =>
          have hn := ih (k + 1) ws hvs n (by simpa using hi)
          have harith : k + 1 + n = k + (n + 1) := by omega
          rw [harith] at hn
          simpa using hn


/-- A successful import certifies the whole document: object root, valid
config object and fields, an events array, and the validation of every
event — nothing partially valid is ever accepted. -/
theorem importFromJson_ok (j : Json) (st : AppStateS)
    (h : importFromJson j = Except.ok st) :
    jsTypeofObjectNotNull j = true ∧
    jsTypeofObjectNotNull (jsGet j ("config")) = true ∧
    isNonBlankString (jsGet (jsGet j ("config")) ("title")) = true ∧
    isValidISODate (jsGet (jsGet j ("config")) ("startDate")) = true ∧
    isValidISODate (jsGet (jsGet j ("config")) ("endDate")) = true ∧
    ∃ elems, jsGet j ("events") = Json.arr elems ∧
      validateEvents 0 elems = Except.ok st.events := by
  unfold importFromJson at h
  by_cases h1 : jsTypeofObjectNotNull j = false
  · rw [if_pos h1] at h; exact absurd h (by simp)
  rw [if_neg h1] at h
  by_cases h2 : jsTypeofObjectNotNull (jsGet j ("config")) = false
  · rw [if_pos h2] at h; exact absurd h (by simp)
  rw [if_neg h2] at h
  by_cases h3 : isNonBlankString (jsGet (jsGet j ("config")) ("title")) = false
  · rw [if_pos h3] at h; exact absurd h (by simp)
  rw [if_neg h3] at h
  by_cases h4 : isValidISODate (jsGet (jsGet j ("config")) ("startDate")) = false
  · rw [if_pos h4] at h; exact absurd h (by simp)
  rw [if_neg h4] at h
  by_cases h5 : isValidISODate (jsGet (jsGet j ("config")) ("endDate")) = false
  · rw [if_pos h5] at h; exact absurd h (by simp)
  rw [if_neg h5] at h
  cases hev : jsGet j ("events") with
  | arr elems =>
    rw [hev] at h
    cases hval : validateEvents 0 elems with
    | error msg => simp [hval] at h
    | ok events =>
      simp only [hval] at h
      injection h with h6
      refine ⟨by simpa using h1, by simpa using h2, by simpa using h3,
        by simpa using h4, by simpa using h5, elems, rfl, ?_⟩
      rw [← h6]
      exact hval
  | null => rw [hev] at h; simp at h
  | bool b => rw [hev] at h; simp at h
  | num q => rw [hev] at h; simp at h
  | str s => rw [hev] at h; simp at h
  | obj props => rw [hev] at h; simp at h

/-- C8: import rejects, with a descriptive field-specific error and without
accepting any part of the document: a non-object root, a missing or invalid
config object or config field, a non-array events value, and any event whose
date is invalid, whose team is not red or blue, or whose description is
blank after trimming — any one failing event aborts the entire import; for
otherwise-valid events, lane is kept exactly when it is 1, 2, 3 or 4 and
defaults to 1 otherwise, and id is kept exactly when it is a non-blank
string and regenerated otherwise. -/
theorem import_rejects_invalid_and_defaults :
    (∀ j, jsTypeofObjectNotNull j = false →
      importFromJson j = Except.error ("JSON root must be an object")) ∧
    (∀ j, jsTypeofObjectNotNull j = true →
      jsTypeofObjectNotNull (jsGet j ("config")) = false →
      importFromJson j = Except.error ("Missing or invalid \"config\" object")) ∧
    (∀ j, jsTypeofObjectNotNull j = true →
      jsTypeofObjectNotNull (jsGet j ("config")) = true →
      isNonBlankString (jsGet (jsGet j ("config")) ("title")) = false →
      importFromJson j = Except.error ("config.title must be a non-empty string")) ∧
    (∀ j, jsTypeofObjectNotNull j = true →
      jsTypeofObjectNotNull (jsGet j ("config")) = true →
      isNonBlankString (jsGet (jsGet j ("config")) ("title")) = true →
      isValidISODate (jsGet (jsGet j ("config")) ("startDate")) = false →
      importFromJson j = Except.error ("config.startDate must be a valid ISO date string")) ∧
    (∀ j, jsTypeofObjectNotNull j = true →
      jsTypeofObjectNotNull (jsGet j ("config")) = true →
      isNonBlankString (jsGet (jsGet j ("config")) ("title")) = true →
      isValidISODate (jsGet (jsGet j ("config")) ("startDate")) = true →
      isValidISODate (jsGet (jsGet j ("config")) ("endDate")) = false →
      importFromJson j = Except.error ("config.endDate must be a valid ISO date string")) ∧
    (∀ j, jsTypeofObjectNotNull j = true →
      jsTypeofObjectNotNull (jsGet j ("config")) = true →
      isNonBlankString (jsGet (jsGet j ("config")) ("title")) = true →
      isValidISODate (jsGet (jsGet j ("config")) ("startDate")) = true →
      isValidISODate (jsGet (jsGet j ("config")) ("endDate")) = true →
      (∀ elems, jsGet j ("events") ≠ Json.arr elems) →
      importFromJson j = Except.error ("\"events\" must be an array")) ∧
    (∀ e i, jsTypeofObjectNotNull e = true →
      isValidISODate (jsGet e ("date")) = false →
      validateEvent e i = Except.error
        ("Event at index " ++ toString i ++ ": \"date\" must be a valid ISO date string")) ∧
    (∀ e i, jsTypeofObjectNotNull e = true →
      isValidISODate (jsGet e ("date")) = true →
      teamOf (jsGet e ("team")) = none →
      validateEvent e i = Except.error
        ("Event at index " ++ toString i ++ ": \"team\" must be \"red\" or \"blue\"")) ∧
    (∀ e i t, jsTypeofObjectNotNull e = true →
      isValidISODate (jsGet e ("date")) = true →
      teamOf (jsGet e ("team")) = some t →
      isNonBlankString (jsGet e ("description")) = false →
      validateEvent e i = Except.error
        ("Event at index " ++ toString i ++ ": \"description\" must be a non-empty string")) ∧
    (∀ j elems i msg0, jsGet j ("events") = Json.arr elems → i < elems.length →
      validateEvent (elems.getD i Json.null) i = Except.error msg0 →
      ∃ msg, importFromJson j = Except.error msg) ∧
    (∀ e i v k, validateEvent e i = Except.ok v →
      jsGet e ("lane") = Json.num k → (k = 1 ∨ k = 2 ∨ k = 3 ∨ k = 4) →
      (v.lane : ℚ) = k) ∧
    (∀ e i v, validateEvent e i = Except.ok v →
      (∀ k : ℚ, jsGet e ("lane") = Json.num k → ¬(k = 1 ∨ k = 2 ∨ k = 3 ∨ k = 4)) →
      v.lane = 1) ∧
    (∀ e i v s, validateEvent e i = Except.ok v →
      jsGet e ("id") = Json.str s → isBlank s = false → v.id = s) ∧
    (∀ e i v, validateEvent e i = Except.ok v →
      (∀ s, jsGet e ("id") = Json.str s → isBlank s = true) → v.id = uuidv4 i) := by
  refine ⟨?_, ?_, ?_, ?_, ?_, ?_, ?_, ?_, ?_, ?_, ?_, ?_, ?_, ?_⟩
  · intro j h1
    unfold importFromJson
    rw [if_pos h1]
  · intro j h1 h2
    unfold importFromJson
    rw [if_neg (by simp [h1]), if_pos h2]
  · intro j h1 h2 h3
    unfold importFromJson
    rw [if_neg (by simp [h1]), if_neg (by simp [h2]), if_pos h3]
  · intro j h1 h2 h3 h4
    unfold importFromJson
    rw [if_neg (by simp [h1]), if_neg (by simp [h2]), if_neg (by simp [h3]), if_pos h4]
  · intro j h1 h2 h3 h4 h5
    unfold importFromJson
    rw [if_neg (by simp [h1]), if_neg (by simp [h2]), if_neg (by simp [h3]),
      if_neg (by simp [h4]), if_pos h5]
  · intro j h1 h2 h3 h4 h5 hne
    unfold importFromJson
    rw [if_neg (by simp [h1]), if_neg (by simp [h2]), if_neg (by simp [h3]),
      if_neg (by simp [h4]), if_neg (by simp [h5])]
    cases hev : jsGet j ("events") with
    | arr elems => exact absurd hev (hne elems)
    | null => rfl
    | bool b => rfl
    | num q => rfl
    | str s => rfl
    | obj props => rfl
  · intro e i h1 h2
    unfold validateEvent
    rw [if_neg (by simp [h1]), if_pos h2]
  · intro e i h1 h2 h3
    unfold validateEvent
    rw [if_neg (by simp [h1]), if_neg (by simp [h2]), h3]
  · intro e i t h1 h2 h3 h4
    unfold validateEvent
    rw [if_neg (by simp [h1]), if_neg (by simp [h2]), h3]
    exact if_pos h4
  · intro j elems i msg0 hev hlen hbad
    cases himp : importFromJson j with
    | error msg => exact ⟨msg, rfl⟩
    | ok st =>
      exfalso
      obtain ⟨_, _, _, _, _, elems2, hev2, hval⟩ := importFromJson_ok j st himp
      rw [hev] at hev2
      injection hev2 with helems
      subst helems
      obtain ⟨v, hv⟩ := validateEvents_ok_nth elems 0 st.events hval i hlen
      rw [Nat.zero_add, hbad] at hv
      exact absurd hv (by simp)
  · intro e i v k hok hk hk4
    obtain ⟨_, _, _, hlane⟩ := validateEvent_ok_fields e i v hok
    rw [hlane, hk]
    rcases hk4 with rfl | rfl | rfl | rfl <;> norm_num [pickLane]
  · intro e i v hok hdef
    obtain ⟨_, _, _, hlane⟩ := validateEvent_ok_fields e i v hok
    rw [hlane]
    cases hL : jsGet e ("lane") with
    | num q =>
      have hq := hdef q hL
      push_neg at hq
      obtain ⟨n1, n2, n3, n4⟩ := hq
      simp [pickLane, n1, n2, n3, n4]
    | null => simp [pickLane]
    | bool b => simp [pickLane]
    | str s => simp [pickLane]
    | arr elems => simp [pickLane]
    | obj props => simp [pickLane]
  · intro e i v s hok hs hblank
    obtain ⟨hid, _, _, _⟩ := validateEvent_ok_fields e i v hok
    rw [hid, hs]
    simp [pickId, hblank]
  · intro e i v hok hblank
    obtain ⟨hid, _, _, _⟩ := validateEvent_ok_fields e i v hok
    rw [hid]
    cases hL : jsGet e ("id") with
    | str s =>
      have hb := hblank s hL
      simp [pickId, hb]
    | null => simp [pickId]
    | bool b => simp [pickId]
    | num q => simp [pickId]
    | arr elems => simp [pickId]
    | obj props => simp [pickId]

/-- Witness for C8: a numeric root is rejected as a non-object, a config
without a title is rejected with the title-specific message, and an event
whose date does not parse is rejected with the date-specific message. -/
theorem import_rejects_invalid_and_defaults_witness :
    importFromJson (Json.num 5) = Except.error ("JSON root must be an object") ∧
    importFromJson (Json.obj [("config", Json.obj [])])
      = Except.error ("config.title must be a non-empty string") ∧
    validateEvent (Json.obj [("date", Json.str "nope")]) 0
      = Except.error
          ("Event at index " ++ toString 0 ++ ": \"date\" must be a valid ISO date string") :=
  ⟨import_rejects_invalid_and_defaults.1 (Json.num 5) rfl,
   import_rejects_invalid_and_defaults.2.2.1
     (Json.obj [("config", Json.obj [])]) (by decide) (by decide) (by decide),
   import_rejects_invalid_and_defaults.2.2.2.2.2.2.1
     (Json.obj [("date", Json.str "nope")]) 0 rfl (by decide)⟩

/-- Serializing a well-formed event and re-validating it returns the event
unchanged (the id is kept because it is non-blank, the lane because it is
in 1..4). -/
theorem validateEvent_eventToJson (e : TimelineEventS) (i : Nat)
    (hid : isBlank e.id = false)
    (hdate : (parseISODate e.date).isSome = true)
    (hdesc : isBlank e.description = false)
    (hlane : e.lane = 1 ∨ e.lane = 2 ∨ e.lane = 3 ∨ e.lane = 4) :
    validateEvent (eventToJson e) i = Except.ok e := by
  rcases e with ⟨eid, edate, eteam, edesc, elane⟩
  simp only at hid hdate hdesc hlane
  cases eteam <;>
    rcases hlane with rfl | rfl | rfl | rfl <;>
      simp [validateEvent, eventToJson, jsGet, getProp, teamOf, teamToString,
        jsTypeofObjectNotNull, isValidISODate, isNonBlankString, pickId, pickLane,
        jsString, hid, hdate, hdesc]

/-- Serializing a list of well-formed events and re-validating them returns
the list unchanged, whatever the starting index. -/
theorem validateEvents_map (events : List TimelineEventS) :
    ∀ k, (∀ e ∈ events, isBlank e.id = false ∧ (parseISODate e.date).isSome = true ∧
      isBlank e.description = false ∧
      (e.lane = 1 ∨ e.lane = 2 ∨ e.lane = 3 ∨ e.lane = 4)) →
    validateEvents k (events.map eventToJson) = Except.ok events := by
  induction events with
  | nil => intro k _; rfl
  | cons e rest ih =>
    intro k hall
    obtain ⟨h1, h2, h3, h4⟩ := hall e (List.mem_cons_self e rest)
    rw [List.map_cons, validateEvents,
      validateEvent_eventToJson e k h1 h2 h3 h4,
      ih (k + 1) (fun x hx => hall x (List.mem_cons_of_mem e hx))]

/-- C9: import is a right inverse of export on valid documents — for every
application state with a non-blank title, valid config dates, and events
whose ids are non-blank, dates valid, descriptions non-blank and lanes in
1..4, serializing the state (export is `structuredClone`, so serialization
sees the state unchanged) and re-importing yields exactly the original
state: every event's id, date, team, description and lane are preserved, no
id is regenerated. -/
theorem import_roundtrip (st : AppStateS)
    (htitle : isBlank st.config.title = false)
    (hstart : (parseISODate st.config.startDate).isSome = true)
    (hend : (parseISODate st.config.endDate).isSome = true)
    (hevents : ∀ e ∈ st.events, isBlank e.id = false ∧
      (parseISODate e.date).isSome = true ∧ isBlank e.description = false ∧
      (e.lane = 1 ∨ e.lane = 2 ∨ e.lane = 3 ∨ e.lane = 4)) :
    importFromJson (stateToJson st) = Except.ok st := by
  rcases st with ⟨⟨title, startDate, endDate⟩, events⟩
  simp only at htitle hstart hend hevents
  simp [importFromJson, stateToJson, jsGet, getProp, jsTypeofObjectNotNull,
    isNonBlankString, isValidISODate, jsString, htitle, hstart, hend,
    validateEvents_map events 0 hevents]

/-- A concrete valid application state for the round-trip witness. -/
def sampleState : AppStateS :=
  ⟨⟨"Assessment", "2024-01-01", "2024-02-01"⟩,
   [⟨"id-1", "2024-01-05", Team.red, "Initial recon", 1⟩,
    ⟨"id-2", "2024-01-12", Team.blue, "Detection", 2⟩]⟩

/-- Witness for C9 on `sampleState`. -/
theorem import_roundtrip_witness :
    importFromJson (stateToJson sampleState) = Except.ok sampleState :=
  import_roundtrip sampleState (by decide) (by decide) (by decide) (by decide)
